import Mathlib

/-!
Shallow embedding of the mcblib frame codec (`src/mcb_frame.h`).

The repository ships only the header `mcb_frame.h`: it declares the frame
structure, the layout constants and the function prototypes, but the bodies of
`Mcb_FrameCreate`, the accessors and the CRC routine are not under `src/`.
Those bodies are therefore modelled from the specification (spec.md §4, §6):
each such definition carries a doc comment starting `Modelled from the spec:`.

Machine integers are `Nat`; a 16-bit store truncates with `% 65536`.  The
frame buffer `u16Buf` (a C array of 128 `uint16_t`) is embedded as a total
function `Nat → Nat`; only indices below `MCB_FRM_MAX_DATA_SZ` are ever
written or read by the modelled operations.
-/

/-- `MCB_FRM_MAX_DATA_SZ`: Ingenia protocol frame maximum buffer size (words). -/
def MCB_FRM_MAX_DATA_SZ : Nat := 128

/-- `MCB_FRM_HEAD_SZ`: frame header size in words. -/
def MCB_FRM_HEAD_SZ : Nat := 1

/-- `MCB_FRM_CONFIG_SZ`: frame config buffer size in words. -/
def MCB_FRM_CONFIG_SZ : Nat := 4

/-- `MCB_FRM_CRC_SZ`: frame CRC size in words. -/
def MCB_FRM_CRC_SZ : Nat := 1

/-- `MCB_FRM_HEAD_IDX`: header position on the raw buffer. -/
def MCB_FRM_HEAD_IDX : Nat := 0

/-- `MCB_FRM_CONFIG_IDX`: configuration position on the raw buffer. -/
def MCB_FRM_CONFIG_IDX : Nat := 1

/-- `MCB_FRM_CYCLIC_IDX`: cyclic position on the raw buffer. -/
def MCB_FRM_CYCLIC_IDX : Nat := 5

/-- `MCB_REQ_READ`: read request command code. -/
def MCB_REQ_READ : Nat := 1

/-- `MCB_REQ_WRITE`: write request command code. -/
def MCB_REQ_WRITE : Nat := 2

/-- `MCB_REQ_IDLE`: idle request command code. -/
def MCB_REQ_IDLE : Nat := 7

/-- `MCB_REP_ACK`: acknowledge reply command code. -/
def MCB_REP_ACK : Nat := 3

/-- `MCB_REP_READ_ERROR`: read error reply command code. -/
def MCB_REP_READ_ERROR : Nat := 5

/-- `MCB_REP_WRITE_ERROR`: write error reply command code. -/
def MCB_REP_WRITE_ERROR : Nat := 6

/-- `MCB_FRM_NOTSEG`: segmentation flag value for an unsegmented frame. -/
def MCB_FRM_NOTSEG : Nat := 0

/-- `MCB_FRM_SEG`: segmentation flag value for a segmented frame. -/
def MCB_FRM_SEG : Nat := 1

/-- `Mcb_TFrame`: high speed Ingenia protocol frame, a raw data buffer of
`uint16_t` words (`u16Buf`, capacity `MCB_FRM_MAX_DATA_SZ`) plus the occupied
frame size `u16Sz`. -/
structure Mcb_TFrame where
  u16Buf : Nat → Nat
  u16Sz : Nat

/-- Errors `Mcb_FrameCreate` can return (spec.md §7 error taxonomy). -/
inductive Mcb_Error where
  | invalidCommand
  | oversizedPayload
deriving DecidableEq

/-- Modelled from the spec: the recognized command code set
{read, write, idle, ack, read-error, write-error} = {1,2,7,3,5,6};
any other value is invalid (spec.md §3, §6). -/
def mcbValidCmd (u8Cmd : Nat) : Bool :=
  u8Cmd == MCB_REQ_READ || u8Cmd == MCB_REQ_WRITE || u8Cmd == MCB_REQ_IDLE ||
    u8Cmd == MCB_REP_ACK || u8Cmd == MCB_REP_READ_ERROR || u8Cmd == MCB_REP_WRITE_ERROR

/-- Modelled from the spec: header word bit layout
`[address bits | 1-bit segmentation flag | 3-bit command]` (spec.md §6):
bits 0-2 command, bit 3 segmentation, bits 4-15 address, truncated to the
16-bit header word exactly as the C shifts into a `uint16_t` would. -/
def mcbHeader (u16Addr u8Pending u8Cmd : Nat) : Nat :=
  (u16Addr % 4096) * 16 + (u8Pending % 2) * 8 + u8Cmd % 8

/-- Modelled from the spec: copying `len` source words into the buffer starting
at word `start`; each stored word is a `uint16_t`, hence the `% 65536`. -/
def mcbWriteSeq (buf : Nat → Nat) (start : Nat) (src : Nat → Nat) (len : Nat) :
    Nat → Nat :=
  fun j => if start ≤ j ∧ j < start + len then src (j - start) % 65536 else buf j

/-- Modelled from the spec: the checksum is a deterministic rolling fold over
the occupied words (spec.md §4 leaves the algorithm an implementation choice,
naming an XOR-fold as the canonical example); `mcbXorFold buf n` is the XOR of
`buf 0, ..., buf (n-1)`. -/
def mcbXorFold (buf : Nat → Nat) : Nat → Nat
  | 0 => 0
  | n + 1 => mcbXorFold buf n ^^^ buf n

/-- Modelled from the spec: frame buffer contents after construction, before
the optional checksum word: header word at `MCB_FRM_HEAD_IDX`, the 4 config
words from `MCB_FRM_CONFIG_IDX`, the cyclic words from `MCB_FRM_CYCLIC_IDX`;
all other words keep the destination buffer's previous contents. -/
def mcbFillBuf (buf : Nat → Nat) (u16Addr u8Cmd u8Pending : Nat)
    (pCfgBuf pCyclicBuf : Nat → Nat) (u16SzCyclic : Nat) : Nat → Nat :=
  mcbWriteSeq
    (mcbWriteSeq
      (fun j => if j = MCB_FRM_HEAD_IDX then mcbHeader u16Addr u8Pending u8Cmd else buf j)
      MCB_FRM_CONFIG_IDX pCfgBuf MCB_FRM_CONFIG_SZ)
    MCB_FRM_CYCLIC_IDX pCyclicBuf u16SzCyclic

/-- Modelled from the spec: appending the checksum over the `n` preceding
occupied words at word index `n`. -/
def mcbAppendCRC (buf : Nat → Nat) (n : Nat) : Nat → Nat :=
  fun j => if j = n then mcbXorFold buf n else buf j

/-- Modelled from the spec: `Mcb_FrameCreate` (prototype in `mcb_frame.h`).
Rejects a command outside the recognized set with `InvalidCommand`; rejects a
total occupied size `1 + 4 + u16SzCyclic + (calcCRC ? 1 : 0)` above
`MCB_FRM_MAX_DATA_SZ` with `OversizedPayload`; otherwise packs the header,
copies the 4 config words and the `u16SzCyclic` cyclic words, optionally
appends the checksum, and sets `u16Sz` to the total occupied size
(spec.md §4 Construct). On error the output frame is undefined, hence the
`Except` result. -/
def Mcb_FrameCreate (tFrame : Mcb_TFrame) (u16Addr u8Cmd u8Pending : Nat)
    (pCfgBuf pCyclicBuf : Nat → Nat) (u16SzCyclic : Nat) (calcCRC : Bool) :
    Except Mcb_Error Mcb_TFrame :=
  if mcbValidCmd u8Cmd then
    if MCB_FRM_HEAD_SZ + MCB_FRM_CONFIG_SZ + u16SzCyclic +
        (if calcCRC then MCB_FRM_CRC_SZ else 0) ≤ MCB_FRM_MAX_DATA_SZ then
      Except.ok
        { u16Buf :=
            if calcCRC then
              mcbAppendCRC
                (mcbFillBuf tFrame.u16Buf u16Addr u8Cmd u8Pending pCfgBuf pCyclicBuf u16SzCyclic)
                (MCB_FRM_CYCLIC_IDX + u16SzCyclic)
            else
              mcbFillBuf tFrame.u16Buf u16Addr u8Cmd u8Pending pCfgBuf pCyclicBuf u16SzCyclic,
          u16Sz := MCB_FRM_HEAD_SZ + MCB_FRM_CONFIG_SZ + u16SzCyclic +
            (if calcCRC then MCB_FRM_CRC_SZ else 0) }
    else
      Except.error Mcb_Error.oversizedPayload
  else
    Except.error Mcb_Error.invalidCommand

/-- Modelled from the spec: `Mcb_FrameGetAddr` extracts the address bit-field
(bits 4-15) from the header word. Pure, total (spec.md §4 GetAddress). -/
def Mcb_FrameGetAddr (tFrame : Mcb_TFrame) : Nat :=
  tFrame.u16Buf MCB_FRM_HEAD_IDX / 16

/-- Modelled from the spec: `Mcb_FrameGetCmd` extracts the 3-bit command field
(bits 0-2) from the header word. Pure, total (spec.md §4 GetCommand). -/
def Mcb_FrameGetCmd (tFrame : Mcb_TFrame) : Nat :=
  tFrame.u16Buf MCB_FRM_HEAD_IDX % 8

/-- Modelled from the spec: `Mcb_FrameGetSegmented` extracts the segmentation
bit (bit 3) from the header word (spec.md §4 GetSegmented). -/
def Mcb_FrameGetSegmented (tFrame : Mcb_TFrame) : Bool :=
  tFrame.u16Buf MCB_FRM_HEAD_IDX / 8 % 2 == MCB_FRM_SEG

/-- Modelled from the spec: `Mcb_FrameGetConfigData` copies the 4-word config
region into the caller's buffer `pu16Buf` and returns the word count
`MCB_FRM_CONFIG_SZ`; the result is the returned count paired with the caller's
buffer after the call (spec.md §4 GetConfigData: always a fixed-size read). -/
def Mcb_FrameGetConfigData (tFrame : Mcb_TFrame) (pu16Buf : Nat → Nat) :
    Nat × (Nat → Nat) :=
  (MCB_FRM_CONFIG_SZ,
    fun i =>
      if i < MCB_FRM_CONFIG_SZ then tFrame.u16Buf (MCB_FRM_CONFIG_IDX + i) else pu16Buf i)

/-- Modelled from the spec: `Mcb_FrameCheckCRC` recomputes the checksum over
all words preceding the trailing checksum word (the frame's last occupied
word) and compares it to the stored value (spec.md §4 CheckChecksum). -/
def Mcb_FrameCheckCRC (tFrame : Mcb_TFrame) : Bool :=
  mcbXorFold tFrame.u16Buf (tFrame.u16Sz - 1) == tFrame.u16Buf (tFrame.u16Sz - 1)

/-- Modelled from the spec: a frame with one word replaced (used to state
single-word-corruption detection). -/
def mcbSetWord (tFrame : Mcb_TFrame) (i v : Nat) : Mcb_TFrame :=
  { u16Buf := fun j => if j = i then v else tFrame.u16Buf j, u16Sz := tFrame.u16Sz }

/-- Modelled from the spec: the C getters take the frame through a
const-qualified pointer; a call is embedded as returning its result together
with the frame state after the call (spec.md §4: side effects none). -/
def Mcb_FrameGetAddr_call (tFrame : Mcb_TFrame) : Nat × Mcb_TFrame :=
  (Mcb_FrameGetAddr tFrame, tFrame)

/-- Modelled from the spec: `Mcb_FrameGetCmd` call with the frame state after
the call (const frame pointer). -/
def Mcb_FrameGetCmd_call (tFrame : Mcb_TFrame) : Nat × Mcb_TFrame :=
  (Mcb_FrameGetCmd tFrame, tFrame)

/-- Modelled from the spec: `Mcb_FrameGetSegmented` call with the frame state
after the call (const frame pointer). -/
def Mcb_FrameGetSegmented_call (tFrame : Mcb_TFrame) : Bool × Mcb_TFrame :=
  (Mcb_FrameGetSegmented tFrame, tFrame)

/-- Modelled from the spec: `Mcb_FrameGetConfigData` call: result and caller
buffer after the call, paired with the frame state after the call (const frame
pointer; only `pu16Buf` is written). -/
def Mcb_FrameGetConfigData_call (tFrame : Mcb_TFrame) (pu16Buf : Nat → Nat) :
    (Nat × (Nat → Nat)) × Mcb_TFrame :=
  (Mcb_FrameGetConfigData tFrame pu16Buf, tFrame)

/-- Modelled from the spec: `Mcb_FrameCheckCRC` call with the frame state
after the call (const frame pointer). -/
def Mcb_FrameCheckCRC_call (tFrame : Mcb_TFrame) : Bool × Mcb_TFrame :=
  (Mcb_FrameCheckCRC tFrame, tFrame)

/-! Concrete values used by the witness theorems. -/

/-- The all-zero word buffer. -/
def mcbZeroBuf : Nat → Nat := fun _ => 0

/-- A zeroed destination frame. -/
def mcbFrame0 : Mcb_TFrame := { u16Buf := mcbZeroBuf, u16Sz := 0 }

/-- The config payload of the spec's concrete scenario (spec.md §8). -/
def mcbCfg8 : Nat → Nat := fun i =>
  if i = 0 then 0x1111 else if i = 1 then 0x2222 else
    if i = 2 then 0x3333 else if i = 3 then 0x4444 else 0

/-- The frame of the spec's concrete scenario: address 0x0A, write command,
not segmented, config `[0x1111, 0x2222, 0x3333, 0x4444]`, no cyclic data,
checksum requested. -/
def mcbFrame8 : Mcb_TFrame :=
  match Mcb_FrameCreate mcbFrame0 0x0A MCB_REQ_WRITE MCB_FRM_NOTSEG mcbCfg8 mcbZeroBuf 0 true with
  | Except.ok f => f
  | Except.error _ => mcbFrame0

/-- A second constructed frame: address 5, idle command, segmented, the same
config payload, two cyclic words, checksum requested. -/
def mcbFrameW : Mcb_TFrame :=
  match Mcb_FrameCreate mcbFrame0 5 MCB_REQ_IDLE MCB_FRM_SEG mcbCfg8 (fun i => i + 1) 2 true with
  | Except.ok f => f
  | Except.error _ => mcbFrame0

/-! Helper lemmas about the modelled operations. -/

theorem mcbWriteSeq_lo (buf : Nat → Nat) (start : Nat) (src : Nat → Nat) (len j : Nat)
    (h : j < start) : mcbWriteSeq buf start src len j = buf j := by
  unfold mcbWriteSeq
  rw [if_neg (by omega)]

theorem mcbWriteSeq_hi (buf : Nat → Nat) (start : Nat) (src : Nat → Nat) (len j : Nat)
    (h : start + len ≤ j) : mcbWriteSeq buf start src len j = buf j := by
  unfold mcbWriteSeq
  rw [if_neg (by omega)]

theorem mcbWriteSeq_mem (buf : Nat → Nat) (start : Nat) (src : Nat → Nat) (len j : Nat)
    (h1 : start ≤ j) (h2 : j < start + len) :
    mcbWriteSeq buf start src len j = src (j - start) % 65536 := by
  unfold mcbWriteSeq
  rw [if_pos ⟨h1, h2⟩]

theorem mcbFillBuf_head (buf : Nat → Nat) (a c p : Nat) (cfg cyc : Nat → Nat) (n : Nat) :
    mcbFillBuf buf a c p cfg cyc n MCB_FRM_HEAD_IDX = mcbHeader a p c := by
  unfold mcbFillBuf
  rw [mcbWriteSeq_lo _ _ _ _ _ (by simp [MCB_FRM_HEAD_IDX, MCB_FRM_CYCLIC_IDX]),
    mcbWriteSeq_lo _ _ _ _ _ (by simp [MCB_FRM_HEAD_IDX, MCB_FRM_CONFIG_IDX]),
    if_pos rfl]

theorem mcbFillBuf_config (buf : Nat → Nat) (a c p : Nat) (cfg cyc : Nat → Nat) (n i : Nat)
    (hi : i < MCB_FRM_CONFIG_SZ) :
    mcbFillBuf buf a c p cfg cyc n (MCB_FRM_CONFIG_IDX + i) = cfg i % 65536 := by
  simp only [MCB_FRM_CONFIG_SZ] at hi
  unfold mcbFillBuf
  rw [mcbWriteSeq_lo _ _ _ _ _
      (by simp only [MCB_FRM_CONFIG_IDX, MCB_FRM_CYCLIC_IDX]; omega),
    mcbWriteSeq_mem _ _ _ _ _ (by omega)
      (by simp only [MCB_FRM_CONFIG_IDX, MCB_FRM_CONFIG_SZ]; omega)]
  simp only [MCB_FRM_CONFIG_IDX, Nat.add_sub_cancel_left]

theorem mcbFillBuf_cyclic (buf : Nat → Nat) (a c p : Nat) (cfg cyc : Nat → Nat) (n i : Nat)
    (hi : i < n) :
    mcbFillBuf buf a c p cfg cyc n (MCB_FRM_CYCLIC_IDX + i) = cyc i % 65536 := by
  unfold mcbFillBuf
  rw [mcbWriteSeq_mem _ _ _ _ _ (by omega) (by omega)]
  simp only [Nat.add_sub_cancel_left]

theorem mcbFillBuf_rest (buf : Nat → Nat) (a c p : Nat) (cfg cyc : Nat → Nat) (n j : Nat)
    (hj : MCB_FRM_CYCLIC_IDX + n ≤ j) :
    mcbFillBuf buf a c p cfg cyc n j = buf j := by
  simp only [MCB_FRM_CYCLIC_IDX] at hj
  unfold mcbFillBuf
  rw [mcbWriteSeq_hi _ _ _ _ _ (by simp only [MCB_FRM_CYCLIC_IDX]; omega),
    mcbWriteSeq_hi _ _ _ _ _
      (by simp only [MCB_FRM_CONFIG_IDX, MCB_FRM_CONFIG_SZ]; omega),
    if_neg (by simp only [MCB_FRM_HEAD_IDX]; omega)]

theorem mcbAppendCRC_at (buf : Nat → Nat) (n : Nat) :
    mcbAppendCRC buf n n = mcbXorFold buf n := by
  unfold mcbAppendCRC
  rw [if_pos rfl]

theorem mcbAppendCRC_ne (buf : Nat → Nat) (n j : Nat) (h : j ≠ n) :
    mcbAppendCRC buf n j = buf j := by
  unfold mcbAppendCRC
  rw [if_neg h]

theorem mcbHeader_mod8 (a p c : Nat) : mcbHeader a p c % 8 = c % 8 := by
  unfold mcbHeader
  omega

theorem mcbHeader_div8_mod2 (a p c : Nat) : mcbHeader a p c / 8 % 2 = p % 2 := by
  unfold mcbHeader
  omega

theorem mcbHeader_div16 (a p c : Nat) : mcbHeader a p c / 16 = a % 4096 := by
  unfold mcbHeader
  omega

theorem mcbXorFold_congr (f g : Nat → Nat) (n : Nat) (h : ∀ i, i < n → f i = g i) :
    mcbXorFold f n = mcbXorFold g n := by
  induction n with
  | zero => rfl
  | succ n ih =>
    show mcbXorFold f n ^^^ f n = mcbXorFold g n ^^^ g n
    rw [ih (fun i hi => h i (by omega)), h n (by omega)]

theorem mcb_xor_rot (x a b : Nat) : (x ^^^ a) ^^^ b = (x ^^^ b) ^^^ a := by
  rw [Nat.xor_assoc, Nat.xor_comm a b, ← Nat.xor_assoc]

theorem mcbXorFold_set (f : Nat → Nat) (n i v : Nat) (h : i < n) :
    mcbXorFold (fun j => if j = i then v else f j) n = mcbXorFold f n ^^^ (f i ^^^ v) := by
  induction n with
  | zero => omega
  | succ n ih =>
    show mcbXorFold (fun j => if j = i then v else f j) n ^^^ (if n = i then v else f n)
        = (mcbXorFold f n ^^^ f n) ^^^ (f i ^^^ v)
    by_cases hni : n = i
    · subst hni
      rw [if_pos rfl, mcbXorFold_congr _ f n (fun j hj => if_neg (by omega))]
      rw [Nat.xor_assoc, Nat.xor_cancel_left]
    · rw [if_neg hni, ih (by omega), mcb_xor_rot]

theorem mcb_xor_ne_self (a d : Nat) (h : d ≠ 0) : a ^^^ d ≠ a := fun hEq =>
  h (Nat.xor_right_inj.mp (hEq.trans (Nat.xor_zero a).symm))

theorem mcb_create_ok_inv_true {tFrame : Mcb_TFrame} {u16Addr u8Cmd u8Pending : Nat}
    {pCfgBuf pCyclicBuf : Nat → Nat} {u16SzCyclic : Nat} {f : Mcb_TFrame}
    (h : Mcb_FrameCreate tFrame u16Addr u8Cmd u8Pending pCfgBuf pCyclicBuf u16SzCyclic true
        = Except.ok f) :
    mcbValidCmd u8Cmd = true ∧
    MCB_FRM_HEAD_SZ + MCB_FRM_CONFIG_SZ + u16SzCyclic + MCB_FRM_CRC_SZ ≤ MCB_FRM_MAX_DATA_SZ ∧
    f = { u16Buf :=
            mcbAppendCRC
              (mcbFillBuf tFrame.u16Buf u16Addr u8Cmd u8Pending pCfgBuf pCyclicBuf u16SzCyclic)
              (MCB_FRM_CYCLIC_IDX + u16SzCyclic),
          u16Sz := MCB_FRM_HEAD_SZ + MCB_FRM_CONFIG_SZ + u16SzCyclic + MCB_FRM_CRC_SZ } := by
  unfold Mcb_FrameCreate at h
  simp only [eq_self_iff_true, if_true] at h
  split at h
  · split at h
    · injection h with h2
      exact ⟨by assumption, by assumption, h2.symm⟩
    · exact Except.noConfusion h
  · exact Except.noConfusion h

theorem mcb_create_ok_inv_false {tFrame : Mcb_TFrame} {u16Addr u8Cmd u8Pending : Nat}
    {pCfgBuf pCyclicBuf : Nat → Nat} {u16SzCyclic : Nat} {f : Mcb_TFrame}
    (h : Mcb_FrameCreate tFrame u16Addr u8Cmd u8Pending pCfgBuf pCyclicBuf u16SzCyclic false
        = Except.ok f) :
    mcbValidCmd u8Cmd = true ∧
    MCB_FRM_HEAD_SZ + MCB_FRM_CONFIG_SZ + u16SzCyclic ≤ MCB_FRM_MAX_DATA_SZ ∧
    f = { u16Buf := mcbFillBuf tFrame.u16Buf u16Addr u8Cmd u8Pending pCfgBuf pCyclicBuf u16SzCyclic,
          u16Sz := MCB_FRM_HEAD_SZ + MCB_FRM_CONFIG_SZ + u16SzCyclic } := by
  unfold Mcb_FrameCreate at h
  simp only [Bool.false_eq_true, if_false, Nat.add_zero] at h
  split at h
  · split at h
    · injection h with h2
      exact ⟨by assumption, by assumption, h2.symm⟩
    · exact Except.noConfusion h
  · exact Except.noConfusion h

theorem mcbValidCmd_lt8 {c : Nat} (h : mcbValidCmd c = true) : c < 8 := by
  have hd : ((((c = 1 ∨ c = 2) ∨ c = 7) ∨ c = 3) ∨ c = 5) ∨ c = 6 := by
    simpa [mcbValidCmd, MCB_REQ_READ, MCB_REQ_WRITE, MCB_REQ_IDLE, MCB_REP_ACK,
      MCB_REP_READ_ERROR, MCB_REP_WRITE_ERROR] using h
  rcases hd with h1 | h1 | h1 | h1 | h1 | h1 <;> omega

theorem mcb_created_sz {tFrame : Mcb_TFrame} {u16Addr u8Cmd u8Pending : Nat}
    {pCfgBuf pCyclicBuf : Nat → Nat} {u16SzCyclic : Nat} {calcCRC : Bool} {f : Mcb_TFrame}
    (h : Mcb_FrameCreate tFrame u16Addr u8Cmd u8Pending pCfgBuf pCyclicBuf u16SzCyclic calcCRC
        = Except.ok f) :
    f.u16Sz = MCB_FRM_HEAD_SZ + MCB_FRM_CONFIG_SZ + u16SzCyclic +
      (if calcCRC then MCB_FRM_CRC_SZ else 0) := by
  cases calcCRC
  · obtain ⟨-, -, hf⟩ := mcb_create_ok_inv_false h
    subst hf
    simp
  · obtain ⟨-, -, hf⟩ := mcb_create_ok_inv_true h
    subst hf
    simp

theorem mcb_created_buf_fill {tFrame : Mcb_TFrame} {u16Addr u8Cmd u8Pending : Nat}
    {pCfgBuf pCyclicBuf : Nat → Nat} {u16SzCyclic : Nat} {calcCRC : Bool} {f : Mcb_TFrame}
    (h : Mcb_FrameCreate tFrame u16Addr u8Cmd u8Pending pCfgBuf pCyclicBuf u16SzCyclic calcCRC
        = Except.ok f)
    (j : Nat) (hj : j < MCB_FRM_CYCLIC_IDX + u16SzCyclic) :
    f.u16Buf j = mcbFillBuf tFrame.u16Buf u16Addr u8Cmd u8Pending pCfgBuf pCyclicBuf u16SzCyclic j := by
  cases calcCRC
  · obtain ⟨-, -, hf⟩ := mcb_create_ok_inv_false h
    subst hf
    rfl
  · obtain ⟨-, -, hf⟩ := mcb_create_ok_inv_true h
    subst hf
    exact mcbAppendCRC_ne _ _ _ (by omega)

theorem mcb_created_head {tFrame : Mcb_TFrame} {u16Addr u8Cmd u8Pending : Nat}
    {pCfgBuf pCyclicBuf : Nat → Nat} {u16SzCyclic : Nat} {calcCRC : Bool} {f : Mcb_TFrame}
    (h : Mcb_FrameCreate tFrame u16Addr u8Cmd u8Pending pCfgBuf pCyclicBuf u16SzCyclic calcCRC
        = Except.ok f) :
    f.u16Buf MCB_FRM_HEAD_IDX = mcbHeader u16Addr u8Pending u8Cmd := by
  rw [mcb_created_buf_fill h MCB_FRM_HEAD_IDX
    (by simp only [MCB_FRM_HEAD_IDX, MCB_FRM_CYCLIC_IDX]; omega)]
  exact mcbFillBuf_head _ _ _ _ _ _ _

theorem mcb_created_crcword {tFrame : Mcb_TFrame} {u16Addr u8Cmd u8Pending : Nat}
    {pCfgBuf pCyclicBuf : Nat → Nat} {u16SzCyclic : Nat} {f : Mcb_TFrame}
    (h : Mcb_FrameCreate tFrame u16Addr u8Cmd u8Pending pCfgBuf pCyclicBuf u16SzCyclic true
        = Except.ok f) :
    f.u16Buf (MCB_FRM_CYCLIC_IDX + u16SzCyclic)
      = mcbXorFold f.u16Buf (MCB_FRM_CYCLIC_IDX + u16SzCyclic) := by
  obtain ⟨-, -, hf⟩ := mcb_create_ok_inv_true h
  subst hf
  show mcbAppendCRC _ _ (MCB_FRM_CYCLIC_IDX + u16SzCyclic) = _
  rw [mcbAppendCRC_at]
  exact mcbXorFold_congr _ _ _ (fun i hi => (mcbAppendCRC_ne _ _ _ (by omega)).symm)

/-- Claim C1: for every address fitting the header's 12-bit address field,
every recognized command, every segmented flag value and every cyclic payload
with `u16SzCyclic ≤ 123` on which `Mcb_FrameCreate` succeeds, the accessors on
the constructed frame recover the inputs: `Mcb_FrameGetAddr` returns the
address, `Mcb_FrameGetCmd` the command, and `Mcb_FrameGetSegmented` the
segmented flag. -/
theorem mcb_frameCreate_getters_roundtrip
    (tFrame : Mcb_TFrame) (u16Addr u8Cmd u8Pending : Nat)
    (pCfgBuf pCyclicBuf : Nat → Nat) (u16SzCyclic : Nat) (calcCRC : Bool) (f : Mcb_TFrame)
    (hAddr : u16Addr < 4096) (hCmd : mcbValidCmd u8Cmd = true) (hSeg : u8Pending ≤ 1)
    (hCyc : u16SzCyclic ≤ 123)
    (hOk : Mcb_FrameCreate tFrame u16Addr u8Cmd u8Pending pCfgBuf pCyclicBuf u16SzCyclic calcCRC
        = Except.ok f) :
    Mcb_FrameGetAddr f = u16Addr ∧ Mcb_FrameGetCmd f = u8Cmd ∧
      Mcb_FrameGetSegmented f = (u8Pending == MCB_FRM_SEG) := by
  have hh := mcb_created_head hOk
  have hc8 := mcbValidCmd_lt8 hCmd
  refine ⟨?_, ?_, ?_⟩
  · unfold Mcb_FrameGetAddr
    rw [hh, mcbHeader_div16, Nat.mod_eq_of_lt hAddr]
  · unfold Mcb_FrameGetCmd
    rw [hh, mcbHeader_mod8, Nat.mod_eq_of_lt hc8]
  · unfold Mcb_FrameGetSegmented
    rw [hh, mcbHeader_div8_mod2, Nat.mod_eq_of_lt (by omega)]

/-- Claim C1 witness: concrete instance with address 5, idle command, segmented
flag set, two cyclic words and checksum requested. -/
theorem mcb_frameCreate_getters_roundtrip_witness :
    Mcb_FrameGetAddr mcbFrameW = 5 ∧ Mcb_FrameGetCmd mcbFrameW = MCB_REQ_IDLE ∧
      Mcb_FrameGetSegmented mcbFrameW = (MCB_FRM_SEG == MCB_FRM_SEG) :=
  mcb_frameCreate_getters_roundtrip mcbFrame0 5 MCB_REQ_IDLE MCB_FRM_SEG mcbCfg8
    (fun i => i + 1) 2 true mcbFrameW (by decide) (by decide) (by decide) (by decide) rfl

/-- Claim C2: constructing a frame with `calcCRC = true` and then calling
`Mcb_FrameCheckCRC` on the result returns `true` (checksum round-trip). -/
theorem mcb_frameCreate_checkCRC_roundtrip
    (tFrame : Mcb_TFrame) (u16Addr u8Cmd u8Pending : Nat)
    (pCfgBuf pCyclicBuf : Nat → Nat) (u16SzCyclic : Nat) (f : Mcb_TFrame)
    (hOk : Mcb_FrameCreate tFrame u16Addr u8Cmd u8Pending pCfgBuf pCyclicBuf u16SzCyclic true
        = Except.ok f) :
    Mcb_FrameCheckCRC f = true := by
  have hidx : f.u16Sz - 1 = MCB_FRM_CYCLIC_IDX + u16SzCyclic := by
    have hsz := mcb_created_sz hOk
    simp only [MCB_FRM_HEAD_SZ, MCB_FRM_CONFIG_SZ, MCB_FRM_CRC_SZ, MCB_FRM_CYCLIC_IDX,
      eq_self_iff_true, if_true] at hsz ⊢
    omega
  unfold Mcb_FrameCheckCRC
  rw [hidx, mcb_created_crcword hOk]
  simp

/-- Claim C2 witness: checksum round-trip on the concrete write-request frame. -/
theorem mcb_frameCreate_checkCRC_roundtrip_witness : Mcb_FrameCheckCRC mcbFrame8 = true :=
  mcb_frameCreate_checkCRC_roundtrip mcbFrame0 0x0A MCB_REQ_WRITE MCB_FRM_NOTSEG mcbCfg8
    mcbZeroBuf 0 mcbFrame8 rfl

/-- Claim C6: for every command value outside the recognized set
{1, 2, 3, 5, 6, 7}, `Mcb_FrameCreate` fails with `InvalidCommand` regardless
of the other arguments. -/
theorem mcb_frameCreate_invalid_command
    (tFrame : Mcb_TFrame) (u16Addr u8Cmd u8Pending : Nat)
    (pCfgBuf pCyclicBuf : Nat → Nat) (u16SzCyclic : Nat) (calcCRC : Bool)
    (hCmd : mcbValidCmd u8Cmd = false) :
    Mcb_FrameCreate tFrame u16Addr u8Cmd u8Pending pCfgBuf pCyclicBuf u16SzCyclic calcCRC
      = Except.error Mcb_Error.invalidCommand := by
  unfold Mcb_FrameCreate
  rw [hCmd]
  simp

/-- Claim C6 witness: command 4 is rejected with `InvalidCommand`. -/
theorem mcb_frameCreate_invalid_command_witness :
    Mcb_FrameCreate mcbFrame0 0 4 0 mcbZeroBuf mcbZeroBuf 0 true
      = Except.error Mcb_Error.invalidCommand :=
  mcb_frameCreate_invalid_command mcbFrame0 0 4 0 mcbZeroBuf mcbZeroBuf 0 true (by decide)

/-- Claim C9: the header accessors are total on every frame value, whatever
its buffer contents: they depend only on the header word, and the value
returned by `Mcb_FrameGetCmd` always lies in the 3-bit range `0..7`. -/
theorem mcb_getters_total (tFrame g : Mcb_TFrame)
    (hHead : tFrame.u16Buf MCB_FRM_HEAD_IDX = g.u16Buf MCB_FRM_HEAD_IDX) :
    Mcb_FrameGetCmd tFrame < 8 ∧
    Mcb_FrameGetAddr tFrame = Mcb_FrameGetAddr g ∧
    Mcb_FrameGetCmd tFrame = Mcb_FrameGetCmd g ∧
    Mcb_FrameGetSegmented tFrame = Mcb_FrameGetSegmented g := by
  unfold Mcb_FrameGetCmd Mcb_FrameGetAddr Mcb_FrameGetSegmented
  rw [hHead]
  exact ⟨Nat.mod_lt _ (by omega), rfl, rfl, rfl⟩

/-- Claim C9 witness: two frames sharing a header word but differing elsewhere. -/
theorem mcb_getters_total_witness :
    Mcb_FrameGetCmd mcbFrame8 < 8 ∧
    Mcb_FrameGetAddr mcbFrame8 = Mcb_FrameGetAddr (mcbSetWord mcbFrame8 3 7) ∧
    Mcb_FrameGetCmd mcbFrame8 = Mcb_FrameGetCmd (mcbSetWord mcbFrame8 3 7) ∧
    Mcb_FrameGetSegmented mcbFrame8 = Mcb_FrameGetSegmented (mcbSetWord mcbFrame8 3 7) :=
  mcb_getters_total mcbFrame8 (mcbSetWord mcbFrame8 3 7) (by decide)

/-- Claim C10: every read operation leaves the frame (buffer and size field)
unchanged, and `Mcb_FrameGetConfigData` writes only the 4 config words of the
caller-supplied output buffer, leaving its other entries untouched. -/
theorem mcb_read_ops_pure (tFrame : Mcb_TFrame) (pu16Buf : Nat → Nat) (i : Nat)
    (hi : MCB_FRM_CONFIG_SZ ≤ i) :
    (Mcb_FrameGetAddr_call tFrame).2 = tFrame ∧
    (Mcb_FrameGetCmd_call tFrame).2 = tFrame ∧
    (Mcb_FrameGetSegmented_call tFrame).2 = tFrame ∧
    (Mcb_FrameGetConfigData_call tFrame pu16Buf).2 = tFrame ∧
    (Mcb_FrameCheckCRC_call tFrame).2 = tFrame ∧
    (Mcb_FrameGetConfigData tFrame pu16Buf).2 i = pu16Buf i := by
  refine ⟨rfl, rfl, rfl, rfl, rfl, ?_⟩
  unfold Mcb_FrameGetConfigData
  simp only [MCB_FRM_CONFIG_SZ] at hi ⊢
  rw [if_neg (by omega)]

/-- Claim C10 witness: the read calls on the concrete write-request frame, and
the caller buffer entry at index 4 is untouched. -/
theorem mcb_read_ops_pure_witness :
    (Mcb_FrameGetAddr_call mcbFrame8).2 = mcbFrame8 ∧
    (Mcb_FrameGetCmd_call mcbFrame8).2 = mcbFrame8 ∧
    (Mcb_FrameGetSegmented_call mcbFrame8).2 = mcbFrame8 ∧
    (Mcb_FrameGetConfigData_call mcbFrame8 mcbZeroBuf).2 = mcbFrame8 ∧
    (Mcb_FrameCheckCRC_call mcbFrame8).2 = mcbFrame8 ∧
    (Mcb_FrameGetConfigData mcbFrame8 mcbZeroBuf).2 4 = mcbZeroBuf 4 :=
  mcb_read_ops_pure mcbFrame8 mcbZeroBuf 4 (by decide)

/-- Claim C3: on a frame constructed by `Mcb_FrameCreate` with `calcCRC = true`,
replacing any single occupied word (header, config, cyclic or checksum) by a
different 16-bit value makes `Mcb_FrameCheckCRC` return `false`. -/
theorem mcb_checkCRC_detects_single_word_change
    (tFrame : Mcb_TFrame) (u16Addr u8Cmd u8Pending : Nat)
    (pCfgBuf pCyclicBuf : Nat → Nat) (u16SzCyclic : Nat) (f : Mcb_TFrame) (i v : Nat)
    (hOk : Mcb_FrameCreate tFrame u16Addr u8Cmd u8Pending pCfgBuf pCyclicBuf u16SzCyclic true
        = Except.ok f)
    (hi : i < f.u16Sz) (hv : v ≠ f.u16Buf i) (hv16 : v < 65536) :
    Mcb_FrameCheckCRC (mcbSetWord f i v) = false := by
  have hsz : f.u16Sz = MCB_FRM_CYCLIC_IDX + u16SzCyclic + 1 := by
    have h1 := mcb_created_sz hOk
    simp only [MCB_FRM_HEAD_SZ, MCB_FRM_CONFIG_SZ, MCB_FRM_CRC_SZ, MCB_FRM_CYCLIC_IDX,
      eq_self_iff_true, if_true] at h1 ⊢
    omega
  have hcrc := mcb_created_crcword hOk
  rw [hsz] at hi
  unfold Mcb_FrameCheckCRC mcbSetWord
  dsimp only
  rw [hsz, Nat.add_sub_cancel]
  by_cases hik : i = MCB_FRM_CYCLIC_IDX + u16SzCyclic
  · subst hik
    rw [if_pos rfl, mcbXorFold_congr _ f.u16Buf _ (fun j hj => if_neg (by omega)), ← hcrc]
    simp only [beq_eq_false_iff_ne]
    exact fun hEq => hv hEq.symm
  · have hilt : i < MCB_FRM_CYCLIC_IDX + u16SzCyclic := by omega
    rw [if_neg (fun hEq => hik hEq.symm), mcbXorFold_set _ _ _ _ hilt, hcrc]
    simp only [beq_eq_false_iff_ne]
    exact mcb_xor_ne_self _ _ (Nat.xor_ne_zero.mpr (fun hEq => hv hEq.symm))

/-- Claim C3 witness: corrupting the header word of the concrete write-request
frame makes the checksum verification fail. -/
theorem mcb_checkCRC_detects_single_word_change_witness :
    Mcb_FrameCheckCRC (mcbSetWord mcbFrame8 0 0) = false :=
  mcb_checkCRC_detects_single_word_change mcbFrame0 0x0A MCB_REQ_WRITE MCB_FRM_NOTSEG mcbCfg8
    mcbZeroBuf 0 mcbFrame8 0 0 rfl (by decide) (by decide) (by decide)

/-- Claim C4: on any successfully constructed frame, `Mcb_FrameGetConfigData`
writes the 4 supplied config words unmodified into the caller's output buffer
and returns the word count `MCB_FRM_CONFIG_SZ`; the returned size is the same
fixed value for every frame. -/
theorem mcb_getConfigData_returns_payload
    (tFrame : Mcb_TFrame) (u16Addr u8Cmd u8Pending : Nat)
    (pCfgBuf pCyclicBuf pu16Buf : Nat → Nat) (u16SzCyclic : Nat) (calcCRC : Bool)
    (f g : Mcb_TFrame) (q : Nat → Nat) (i : Nat)
    (hi : i < MCB_FRM_CONFIG_SZ)
    (hBound : ∀ k, k < MCB_FRM_CONFIG_SZ → pCfgBuf k < 65536)
    (hOk : Mcb_FrameCreate tFrame u16Addr u8Cmd u8Pending pCfgBuf pCyclicBuf u16SzCyclic calcCRC
        = Except.ok f) :
    (Mcb_FrameGetConfigData f pu16Buf).1 = MCB_FRM_CONFIG_SZ ∧
    (Mcb_FrameGetConfigData f pu16Buf).2 i = pCfgBuf i ∧
    (Mcb_FrameGetConfigData g q).1 = MCB_FRM_CONFIG_SZ := by
  refine ⟨rfl, ?_, rfl⟩
  unfold Mcb_FrameGetConfigData
  dsimp only
  rw [if_pos hi,
    mcb_created_buf_fill hOk (MCB_FRM_CONFIG_IDX + i)
      (by simp only [MCB_FRM_CONFIG_IDX, MCB_FRM_CONFIG_SZ, MCB_FRM_CYCLIC_IDX] at hi ⊢; omega),
    mcbFillBuf_config _ _ _ _ _ _ _ _ hi]
  exact Nat.mod_eq_of_lt (hBound i hi)

/-- Claim C4 witness: reading the config region of the concrete frame recovers
the supplied payload word and the fixed count 4. -/
theorem mcb_getConfigData_returns_payload_witness :
    (Mcb_FrameGetConfigData mcbFrame8 mcbZeroBuf).1 = MCB_FRM_CONFIG_SZ ∧
    (Mcb_FrameGetConfigData mcbFrame8 mcbZeroBuf).2 3 = mcbCfg8 3 ∧
    (Mcb_FrameGetConfigData mcbFrame0 mcbZeroBuf).1 = MCB_FRM_CONFIG_SZ :=
  mcb_getConfigData_returns_payload mcbFrame0 0x0A MCB_REQ_WRITE MCB_FRM_NOTSEG mcbCfg8
    mcbZeroBuf mcbZeroBuf 0 true mcbFrame8 mcbFrame0 mcbZeroBuf 3 (by decide) (by decide) rfl

/-- Claim C5: with a recognized command, `Mcb_FrameCreate` fails with
`OversizedPayload` exactly when `1 + 4 + u16SzCyclic + (calcCRC ? 1 : 0)`
exceeds `MCB_FRM_MAX_DATA_SZ`; on success the frame's occupied size `u16Sz`
equals that total and never exceeds `MCB_FRM_MAX_DATA_SZ`. -/
theorem mcb_frameCreate_oversized_iff
    (tFrame : Mcb_TFrame) (u16Addr u8Cmd u8Pending : Nat)
    (pCfgBuf pCyclicBuf : Nat → Nat) (u16SzCyclic : Nat) (calcCRC : Bool)
    (hCmd : mcbValidCmd u8Cmd = true) :
    (Mcb_FrameCreate tFrame u16Addr u8Cmd u8Pending pCfgBuf pCyclicBuf u16SzCyclic calcCRC
        = Except.error Mcb_Error.oversizedPayload ↔
      MCB_FRM_MAX_DATA_SZ < MCB_FRM_HEAD_SZ + MCB_FRM_CONFIG_SZ + u16SzCyclic +
        (if calcCRC then MCB_FRM_CRC_SZ else 0)) ∧
    (∀ f, Mcb_FrameCreate tFrame u16Addr u8Cmd u8Pending pCfgBuf pCyclicBuf u16SzCyclic calcCRC
        = Except.ok f →
      f.u16Sz = MCB_FRM_HEAD_SZ + MCB_FRM_CONFIG_SZ + u16SzCyclic +
        (if calcCRC then MCB_FRM_CRC_SZ else 0) ∧
      f.u16Sz ≤ MCB_FRM_MAX_DATA_SZ) := by
  constructor
  · unfold Mcb_FrameCreate
    rw [hCmd]
    simp only [eq_self_iff_true, if_true]
    constructor
    · intro hEq
      by_contra hlt
      rw [if_pos (by omega)] at hEq
      exact Except.noConfusion hEq
    · intro hlt
      rw [if_neg (by omega)]
  · intro f hOk
    refine ⟨mcb_created_sz hOk, ?_⟩
    rw [mcb_created_sz hOk]
    cases calcCRC
    · simpa using (mcb_create_ok_inv_false hOk).2.1
    · simpa using (mcb_create_ok_inv_true hOk).2.1

/-- Claim C5 witness: with a valid command, 124 cyclic words and no checksum
the total 129 exceeds the 128-word capacity, so construction fails with
`OversizedPayload`. -/
theorem mcb_frameCreate_oversized_iff_witness :
    (Mcb_FrameCreate mcbFrame0 0 MCB_REQ_READ 0 mcbZeroBuf mcbZeroBuf 124 false
        = Except.error Mcb_Error.oversizedPayload ↔
      MCB_FRM_MAX_DATA_SZ < MCB_FRM_HEAD_SZ + MCB_FRM_CONFIG_SZ + 124 +
        (if false then MCB_FRM_CRC_SZ else 0)) ∧
    (∀ f, Mcb_FrameCreate mcbFrame0 0 MCB_REQ_READ 0 mcbZeroBuf mcbZeroBuf 124 false
        = Except.ok f →
      f.u16Sz = MCB_FRM_HEAD_SZ + MCB_FRM_CONFIG_SZ + 124 +
        (if false then MCB_FRM_CRC_SZ else 0) ∧
      f.u16Sz ≤ MCB_FRM_MAX_DATA_SZ) :=
  mcb_frameCreate_oversized_iff mcbFrame0 0 MCB_REQ_READ 0 mcbZeroBuf mcbZeroBuf 124 false
    (by decide)

/-- Claim C7: every successfully constructed frame has the documented layout:
word 0 packs the command in bits 0-2, the segmentation flag in bit 3 and the
address in bits 4-15; words 1-4 hold the config payload; for every index `j`,
either `j` lies outside the cyclic region or word `5 + j` holds the `j`-th
cyclic payload word; and when `calcCRC` is true the checksum word sits
immediately after the cyclic region and equals the checksum of all preceding
occupied words.  The cyclic and checksum parts are stated as disjunctions so
the theorem covers every successful construction, including frames with zero
cyclic words. -/
theorem mcb_frameCreate_layout
    (tFrame : Mcb_TFrame) (u16Addr u8Cmd u8Pending : Nat)
    (pCfgBuf pCyclicBuf : Nat → Nat) (u16SzCyclic : Nat) (calcCRC : Bool) (f : Mcb_TFrame)
    (i j : Nat) (hi : i < MCB_FRM_CONFIG_SZ)
    (hOk : Mcb_FrameCreate tFrame u16Addr u8Cmd u8Pending pCfgBuf pCyclicBuf u16SzCyclic calcCRC
        = Except.ok f) :
    f.u16Buf MCB_FRM_HEAD_IDX % 8 = u8Cmd % 8 ∧
    f.u16Buf MCB_FRM_HEAD_IDX / 8 % 2 = u8Pending % 2 ∧
    f.u16Buf MCB_FRM_HEAD_IDX / 16 = u16Addr % 4096 ∧
    f.u16Buf (MCB_FRM_CONFIG_IDX + i) = pCfgBuf i % 65536 ∧
    (u16SzCyclic ≤ j ∨ f.u16Buf (MCB_FRM_CYCLIC_IDX + j) = pCyclicBuf j % 65536) ∧
    (calcCRC = false ∨
      f.u16Buf (MCB_FRM_CYCLIC_IDX + u16SzCyclic)
        = mcbXorFold f.u16Buf (MCB_FRM_CYCLIC_IDX + u16SzCyclic)) := by
  have hh := mcb_created_head hOk
  refine ⟨by rw [hh, mcbHeader_mod8], by rw [hh, mcbHeader_div8_mod2],
    by rw [hh, mcbHeader_div16], ?_, ?_, ?_⟩
  · rw [mcb_created_buf_fill hOk (MCB_FRM_CONFIG_IDX + i)
      (by simp only [MCB_FRM_CONFIG_IDX, MCB_FRM_CONFIG_SZ, MCB_FRM_CYCLIC_IDX] at hi ⊢; omega),
      mcbFillBuf_config _ _ _ _ _ _ _ _ hi]
  · by_cases hj : u16SzCyclic ≤ j
    · exact Or.inl hj
    · refine Or.inr ?_
      rw [mcb_created_buf_fill hOk (MCB_FRM_CYCLIC_IDX + j) (by omega),
        mcbFillBuf_cyclic _ _ _ _ _ _ _ _ (by omega)]
  · cases calcCRC
    · exact Or.inl rfl
    · exact Or.inr (mcb_created_crcword hOk)

/-- Claim C7 witness: the layout of the spec's concrete write-request frame,
a frame with zero cyclic words and checksum, at config index 3 and cyclic
index 0 (outside the empty cyclic region). -/
theorem mcb_frameCreate_layout_witness :
    mcbFrame8.u16Buf MCB_FRM_HEAD_IDX % 8 = MCB_REQ_WRITE % 8 ∧
    mcbFrame8.u16Buf MCB_FRM_HEAD_IDX / 8 % 2 = MCB_FRM_NOTSEG % 2 ∧
    mcbFrame8.u16Buf MCB_FRM_HEAD_IDX / 16 = 0x0A % 4096 ∧
    mcbFrame8.u16Buf (MCB_FRM_CONFIG_IDX + 3) = mcbCfg8 3 % 65536 ∧
    ((0 : Nat) ≤ 0 ∨ mcbFrame8.u16Buf (MCB_FRM_CYCLIC_IDX + 0) = mcbZeroBuf 0 % 65536) ∧
    (true = false ∨
      mcbFrame8.u16Buf (MCB_FRM_CYCLIC_IDX + 0)
        = mcbXorFold mcbFrame8.u16Buf (MCB_FRM_CYCLIC_IDX + 0)) :=
  mcb_frameCreate_layout mcbFrame0 0x0A MCB_REQ_WRITE MCB_FRM_NOTSEG mcbCfg8 mcbZeroBuf 0 true
    mcbFrame8 3 0 (by decide) rfl

/-- Claim C8: the spec's concrete scenario: address 0x0A, write command, not
segmented, config `[0x1111, 0x2222, 0x3333, 0x4444]`, no cyclic data, checksum
requested: construction succeeds with occupied size 6; the command accessor
returns 2, the segmented accessor false, the config accessor recovers the
payload with count 4, and the checksum verifies. -/
theorem mcb_concrete_write_scenario :
    Mcb_FrameCreate mcbFrame0 0x0A MCB_REQ_WRITE MCB_FRM_NOTSEG mcbCfg8 mcbZeroBuf 0 true
        = Except.ok mcbFrame8 ∧
    mcbFrame8.u16Sz = 6 ∧
    Mcb_FrameGetCmd mcbFrame8 = MCB_REQ_WRITE ∧
    Mcb_FrameGetSegmented mcbFrame8 = false ∧
    (Mcb_FrameGetConfigData mcbFrame8 mcbZeroBuf).1 = MCB_FRM_CONFIG_SZ ∧
    (Mcb_FrameGetConfigData mcbFrame8 mcbZeroBuf).2 0 = 0x1111 ∧
    (Mcb_FrameGetConfigData mcbFrame8 mcbZeroBuf).2 1 = 0x2222 ∧
    (Mcb_FrameGetConfigData mcbFrame8 mcbZeroBuf).2 2 = 0x3333 ∧
    (Mcb_FrameGetConfigData mcbFrame8 mcbZeroBuf).2 3 = 0x4444 ∧
    Mcb_FrameCheckCRC mcbFrame8 = true :=
  ⟨rfl, by decide, by decide, by decide, by decide, by decide, by decide, by decide, by decide,
    by decide⟩
